import Mathlib

/-!
A verification development for the appliance launcher of libguestfs
(src/src/launch-appliance.c).  The C code is shallowly embedded: pure
helpers become Lean functions, the stateful capability cache and the
launch/shutdown orchestration become explicit state passing over small
record types, and the outcomes of external system calls are supplied as
explicit environment values.  Machine integers are modelled as Nat with
explicit byte arithmetic where byte order matters.
-/

namespace Guestfs

/-! ## Byte-order helpers

`ntohs`/`ntohl` on a little-endian host: a 16-bit (resp. 32-bit) byte
swap.  Values are Nats below 2^16 (resp. 2^32); the swap is written with
explicit division and remainder by 256.
-/

/-- Byte swap of a 16-bit value (ntohs / htons on a little-endian host). -/
def ntohs16 (n : Nat) : Nat :=
  (n % 256) * 256 + (n / 256) % 256

/-- Byte swap of a 32-bit value (ntohl / htonl on a little-endian host). -/
def ntohl32 (n : Nat) : Nat :=
  (n % 256) * 16777216 + ((n / 256) % 256) * 65536 +
    ((n / 65536) % 256) * 256 + (n / 16777216) % 256

/-- AF_INET. -/
def AF_INET : Nat := 2

/-- INADDR_LOOPBACK (127.0.0.1 in host byte order). -/
def INADDR_LOOPBACK : Nat := 2130706433

/-! ## PeerAuthenticator: check_peer_euid (src/src/launch-appliance.c:1012-1083)

The syscall results (`getpeername`, `getsockname`) are given as already
filled `SockAddrIn` records holding the raw network-byte-order address
and port, exactly as the kernel returns them.  `/proc/net/tcp` is given
as the list of its data lines (the header line is already dropped, as the
code drops it with the first `fgets`); a line on which the `sscanf` does
not match all 12 fields is `none`, a parsed line carries the five fields
the code uses.
-/

/-- The parts of `struct sockaddr_in` the code reads: family, and the
address/port in network byte order as the kernel stores them. -/
structure SockAddrIn where
  sin_family : Nat
  sin_port : Nat
  sin_addr : Nat
deriving DecidableEq

/-- One parsed data line of /proc/net/tcp: `local_address:port`,
`rem_address:port` (addresses as raw network-order 32-bit hex, ports in
host byte order, exactly as the kernel prints them) and the UID column. -/
structure TcpLine where
  local_addr : Nat
  local_port : Nat
  rem_addr : Nat
  rem_port : Nat
  uid : Nat
deriving DecidableEq

/-- The scan loop of check_peer_euid: skip lines sscanf rejected, return
the UID of the first line matching the 4-tuple, comparing addresses raw
and ports after the byte swap (the port fields of the table are in host
byte order, the sockaddr ones in network byte order). -/
def scan_proc_net_tcp (our peer : SockAddrIn) :
    List (Option TcpLine) → Option Nat
  | [] => none
  | none :: rest => scan_proc_net_tcp our peer rest
  | some l :: rest =>
    if l.local_addr = our.sin_addr ∧ l.local_port = ntohs16 our.sin_port ∧
        l.rem_addr = peer.sin_addr ∧ l.rem_port = ntohs16 peer.sin_port then
      some l.uid
    else
      scan_proc_net_tcp our peer rest

/-- check_peer_euid: reject a peer that is not IPv4 loopback, then scan
the TCP table; `none` models the -1 error return. -/
def check_peer_euid (peer our : SockAddrIn) (table : List (Option TcpLine)) :
    Option Nat :=
  if peer.sin_family ≠ AF_INET ∨ ntohl32 peer.sin_addr ≠ INADDR_LOOPBACK then
    none
  else
    scan_proc_net_tcp our peer table

/-- The matching condition of the claim, as a Boolean predicate on a
parsed line: local and remote address fields equal the raw network-order
addresses of the socket, local and remote port fields equal the
byte-swapped (host-order) ports. -/
def matches_socket_tuple (our peer : SockAddrIn) (l : TcpLine) : Bool :=
  (l.local_addr == our.sin_addr) && (l.local_port == ntohs16 our.sin_port) &&
    (l.rem_addr == peer.sin_addr) && (l.rem_port == ntohs16 peer.sin_port)

theorem scan_proc_net_tcp_eq_find (our peer : SockAddrIn) :
    ∀ table : List (Option TcpLine),
      scan_proc_net_tcp our peer table =
        ((table.filterMap id).find? (matches_socket_tuple our peer)).map TcpLine.uid
  | [] => rfl
  | none :: rest => by
    simpa [scan_proc_net_tcp, List.filterMap_cons] using
      scan_proc_net_tcp_eq_find our peer rest
  | some l :: rest => by
    by_cases h : l.local_addr = our.sin_addr ∧ l.local_port = ntohs16 our.sin_port ∧
        l.rem_addr = peer.sin_addr ∧ l.rem_port = ntohs16 peer.sin_port
    · have hb : matches_socket_tuple our peer l = true := by
        simp [matches_socket_tuple, h.1, h.2.1, h.2.2.1, h.2.2.2]
      simp [scan_proc_net_tcp, List.filterMap_cons, List.find?, hb, h]
    · have hb : matches_socket_tuple our peer l = false := by
        simp only [matches_socket_tuple, Bool.and_eq_true, beq_iff_eq,
          ← Bool.not_eq_true] at *
        intro hc
        exact h ⟨hc.1.1.1, hc.1.1.2, hc.1.2, hc.2⟩
      simpa [scan_proc_net_tcp, List.filterMap_cons, List.find?, hb, h] using
        scan_proc_net_tcp_eq_find our peer rest

/-- Claim C1: for an accepted socket whose peer is an IPv4 loopback
address, check_peer_euid returns the UID column of the first parsed data
line of the TCP table whose address fields equal the socket's raw
network-order local/peer addresses and whose port fields equal the
byte-swapped (host-order) local/peer ports; it errors when no line
matches, and also when the peer family is not IPv4 or the peer address
is not loopback. -/
theorem claim_C1 (peer our : SockAddrIn) (table : List (Option TcpLine)) :
    (peer.sin_family = AF_INET → ntohl32 peer.sin_addr = INADDR_LOOPBACK →
      check_peer_euid peer our table =
        ((table.filterMap id).find? (matches_socket_tuple our peer)).map TcpLine.uid) ∧
    (peer.sin_family ≠ AF_INET ∨ ntohl32 peer.sin_addr ≠ INADDR_LOOPBACK →
      check_peer_euid peer our table = none) := by
  constructor
  · intro h1 h2
    rw [check_peer_euid, if_neg (by push_neg; exact ⟨h1, h2⟩)]
    exact scan_proc_net_tcp_eq_find our peer table
  · intro h
    rw [check_peer_euid, if_pos h]

/-- A concrete peer: IPv4, port 12345 in network byte order (0x3930),
loopback address in network byte order (0x0100007F as a little-endian
integer). -/
def c1Peer : SockAddrIn := { sin_family := 2, sin_port := 14640, sin_addr := 16777343 }

/-- A concrete local socket name: IPv4, port 80 in network byte order
(0x5000), loopback. -/
def c1Our : SockAddrIn := { sin_family := 2, sin_port := 20480, sin_addr := 16777343 }

/-- A concrete TCP table: one line the sscanf rejects, one non-matching
parsed line, then the matching line owned by UID 1000. -/
def c1Table : List (Option TcpLine) :=
  [none,
   some { local_addr := 16777343, local_port := 81, rem_addr := 16777343,
          rem_port := 12345, uid := 7 },
   some { local_addr := 16777343, local_port := 80, rem_addr := 16777343,
          rem_port := 12345, uid := 1000 }]

theorem claim_C1_witness : check_peer_euid c1Peer c1Our c1Table = some 1000 := by
  have h := (claim_C1 c1Peer c1Our c1Table).1 (by decide) (by decide)
  rw [h]
  decide

/-! ## ArgvBuilder: add_cmdline_shell_unquoted (src/src/launch-appliance.c:120-171)

The splitter is modelled over the option string as a `List Char` with
the running pointer at the head.  `strchr (options, quote)` is the index
of the first occurrence of the quote character, counted from `options`
itself — note, not from `startp`.  `safe_strndup (g, startp, n)` with
`n = endp - startp` computed in pointer arithmetic: when that difference
is negative it wraps to a huge `size_t`, so the copy is capped by the
terminating NUL and yields the whole rest of the string from `startp`.
The two `_exit (EXIT_FAILURE)` paths become the two error values.
-/

/-- The single-quote character. -/
def squote : Char := Char.ofNat 39

/-- The double-quote character. -/
def dquote : Char := Char.ofNat 34

/-- The two fatal parse errors of add_cmdline_shell_unquoted. -/
inductive ShellSplitError where
  | unclosedQuote
  | cannotParse
deriving DecidableEq

/-- Outcome of the splitter: the appended tokens, or the `_exit` path. -/
inductive SplitResult where
  | ok (tokens : List String)
  | err (e : ShellSplitError)
deriving DecidableEq

/-- add_cmdline_shell_unquoted, one loop iteration per recursive step.
Each step reads the head character, finds `endp`, extracts the token,
advances `nextp`, skips the run of spaces, and continues. -/
def add_cmdline_shell_unquoted (options : List Char) : SplitResult :=
  match options with
  | [] => .ok []
  | c :: cs =>
    let opts := c :: cs
    if c = squote ∨ c = dquote then
      -- quote = *options, startp = options + 1
      match opts.findIdx? (· == c) with
      | none => .err .unclosedQuote
      | some e =>
        -- token = safe_strndup (startp, endp - startp)
        let token : List Char :=
          if e < 1 then opts.drop 1 else (opts.drop 1).take (e - 1)
        match opts.drop (e + 1) with
        | [] =>
          -- endp[1] == NUL: nextp = endp + 1, then the space skip
          match add_cmdline_shell_unquoted ((opts.drop (e + 1)).dropWhile (· == ' ')) with
          | .err er => .err er
          | .ok toks => .ok (String.mk token :: toks)
        | d :: _ =>
          if d = ' ' then
            -- endp[1] == space: nextp = endp + 2, then the space skip
            match add_cmdline_shell_unquoted ((opts.drop (e + 2)).dropWhile (· == ' ')) with
            | .err er => .err er
            | .ok toks => .ok (String.mk token :: toks)
          else .err .cannotParse
    else
      -- quote = space, startp = options
      match opts.findIdx? (· == ' ') with
      | none =>
        -- endp = options + strlen (options): the last token, nextp = endp
        .ok [String.mk opts]
      | some e =>
        -- endp[0] == space, so nextp = endp + 1, then the space skip
        match add_cmdline_shell_unquoted ((opts.drop (e + 1)).dropWhile (· == ' ')) with
        | .err er => .err er
        | .ok toks => .ok (String.mk (opts.take e) :: toks)
termination_by options.length
decreasing_by
  all_goals
    refine Nat.lt_of_le_of_lt (List.Sublist.length_le (List.dropWhile_sublist _)) ?_
  all_goals
    simp only [List.length_drop, List.length_cons]
  all_goals omega

/-- The splitting the spec intends on the counterexample input: searching
for the closing quote from `startp` (one past the opening quote) rather
than from `options` yields the characters between the quotes. -/
def intended_quoted_token (opts : List Char) : Option (List Char) :=
  match opts with
  | [] => none
  | c :: cs =>
    if c = squote ∨ c = dquote then
      match cs.findIdx? (· == c) with
      | none => none
      | some e => some (cs.take e)
    else none

/-- Claim C2 (code bug): on the balanced, stray-quote-free input
consisting of the single-quoted token ab — the four characters
quote a b quote — the claim requires the token ab (quotes stripped), and
indeed searching for the closing quote after the opening one finds it;
but the code searches for the closing quote from the opening quote
itself, so `endp` lands on the opening quote, `endp[1]` is the letter a,
and the function takes the fatal `cannot parse quoted string` exit. -/
theorem claim_C2 :
    add_cmdline_shell_unquoted [squote, 'a', 'b', squote] = .err .cannotParse ∧
    intended_quoted_token [squote, 'a', 'b', squote] = some ['a', 'b'] := by
  constructor
  · rw [add_cmdline_shell_unquoted]
    decide
  · decide

/-! ## Drives

`struct drive` as the launcher reads it: the backing path, the optional
legacy `iface`, optional format and disk label, and the readonly /
cache-none flags.  A NULL char pointer is `none`.
-/

/-- The fields of `struct drive` used by qemu_drive_param and
make_appliance_dev. -/
structure Drive where
  path : String
  iface : Option String
  format : Option String
  disk_label : Option String
  readonly : Bool
  use_cache_none : Bool
deriving DecidableEq

/-! ## DriveParamFormatter: qemu_drive_param (src/src/launch-appliance.c:958-1006) -/

/-- The path-copy loop of qemu_drive_param: each `,` is written twice,
every other character once. -/
def escape_commas : List Char → List Char
  | [] => []
  | c :: cs => if c = ',' then ',' :: ',' :: escape_commas cs else c :: escape_commas cs

/-- qemu_drive_param.  `virtio_scsi` is the (sticky, already decided)
result of qemu_supports_virtio_scsi at the time the child builds the
command line.  The `snprintf` tail appends the optional pieces in the
order snapshot, cache, format, serial, and the final `,if=`. -/
def qemu_drive_param (virtio_scsi : Bool) (drv : Drive) : String :=
  let iface :=
    match drv.iface with
    | some i => i
    | none => if virtio_scsi then "none" else "virtio"
  "file=" ++ String.mk (escape_commas drv.path.toList) ++
    (if drv.readonly then ",snapshot=on" else "") ++
    (if drv.use_cache_none then ",cache=none" else "") ++
    (match drv.format with | some f => ",format=" ++ f | none => "") ++
    (match drv.disk_label with | some l => ",serial=" ++ l | none => "") ++
    ",if=" ++ iface

/-- The escaping map as the spec words it: every `,` of the path is
doubled to `,,`, no other character changes. -/
def spec_escape (p : String) : String :=
  String.mk (p.toList.flatMap fun c => if c = ',' then [',', ','] else [c])

/-- The drive parameter grammar exactly as claim C3 states it. -/
def spec_drive_param (virtio_scsi : Bool) (drv : Drive) : String :=
  "file=" ++ spec_escape drv.path ++
    (if drv.readonly then ",snapshot=on" else "") ++
    (if drv.use_cache_none then ",cache=none" else "") ++
    (match drv.format with | some f => ",format=" ++ f | none => "") ++
    (match drv.disk_label with | some l => ",serial=" ++ l | none => "") ++
    ",if=" ++
    (match drv.iface with
     | some i => i
     | none => if virtio_scsi then "none" else "virtio")

theorem escape_commas_eq_flatMap (l : List Char) :
    escape_commas l = l.flatMap fun c => if c = ',' then [',', ','] else [c] := by
  induction l with
  | nil => rfl
  | cons c cs ih =>
    by_cases h : c = ','
    · simp [escape_commas, h, ih]
    · simp [escape_commas, h, ih]

/-- Claim C3: for every drive and index, the drive parameter string is
exactly `file=` ++ the comma-doubled path, then `,snapshot=on` iff
readonly, `,cache=none` iff use_cache_none, `,format=<fmt>` iff format
is set, `,serial=<label>` iff disk_label is set, ending with `,if=I`
where I is the iface verbatim if set, else `none` under virtio-scsi,
else `virtio`; the escaping doubles every `,` of the path and changes
no other character. -/
theorem claim_C3 (virtio_scsi : Bool) (drv : Drive) :
    qemu_drive_param virtio_scsi drv = spec_drive_param virtio_scsi drv := by
  rw [qemu_drive_param, spec_drive_param, spec_escape, escape_commas_eq_flatMap]

/-! ## ApplianceDeviceNamer: make_appliance_dev (src/src/launch-appliance.c:714-737) -/

/-- Modelled from the spec: `guestfs___drive_name` is not among the
repository files given here (make_appliance_dev calls it to write the
drive letter suffix).  The spec defines the suffix as the base-26
lowercase letter sequence for the index: 0 -> a, 25 -> z, 26 -> aa, and
so on, the mapping the surrounding system uses to name drives. -/
def drive_name (index : Nat) : List Char :=
  if h : index < 26 then
    [Char.ofNat (97 + index)]
  else
    drive_name (index / 26 - 1) ++ [Char.ofNat (97 + index % 26)]
termination_by index
decreasing_by
  have h26 : index / 26 < index := Nat.div_lt_self (by omega) (by omega)
  omega

/-- The index loop of make_appliance_dev: under virtio-scsi a drive is
counted when its iface is NULL or equals "ide"; under virtio-blk when
its iface is NULL or differs from "virtio". -/
def appliance_index (virtio_scsi : Bool) (drives : List Drive) : Nat :=
  drives.foldl
    (fun index drv =>
      if virtio_scsi then
        if drv.iface = none ∨ drv.iface = some "ide" then index + 1 else index
      else
        if drv.iface = none ∨ drv.iface ≠ some "virtio" then index + 1 else index)
    0

/-- make_appliance_dev: `/dev/Xd` with X = s under virtio-scsi, v under
virtio-blk, followed by the letter suffix of the counted index. -/
def make_appliance_dev (virtio_scsi : Bool) (drives : List Drive) : String :=
  String.mk (['/', 'd', 'e', 'v', '/', if virtio_scsi then 's' else 'v', 'd'] ++
    drive_name (appliance_index virtio_scsi drives))

/-- The counted set as claim C4 words it, per bus. -/
def counted_for_bus (virtio_scsi : Bool) (drv : Drive) : Bool :=
  if virtio_scsi then
    drv.iface == none || drv.iface == some "ide"
  else
    drv.iface == none || drv.iface != some "virtio"

theorem foldl_count_filter (p : Drive → Bool) (drives : List Drive) :
    ∀ n : Nat,
      drives.foldl (fun index drv => if p drv then index + 1 else index) n =
        n + (drives.filter p).length := by
  induction drives with
  | nil => intro n; simp
  | cons d ds ih =>
    intro n
    by_cases h : p d = true
    · simp only [List.foldl_cons, List.filter_cons, h, if_true, ite_true]
      rw [ih (n + 1)]
      simp only [List.length_cons]
      omega
    · simp only [List.foldl_cons, List.filter_cons, h, if_false, ite_false,
        Bool.false_eq_true]
      rw [ih n]

theorem appliance_index_eq_filter (virtio_scsi : Bool) (drives : List Drive) :
    appliance_index virtio_scsi drives =
      (drives.filter (counted_for_bus virtio_scsi)).length := by
  have hfun :
      (fun (index : Nat) (drv : Drive) =>
        if virtio_scsi then
          if drv.iface = none ∨ drv.iface = some "ide" then index + 1 else index
        else
          if drv.iface = none ∨ drv.iface ≠ some "virtio" then index + 1 else index) =
      fun (index : Nat) (drv : Drive) =>
        if counted_for_bus virtio_scsi drv then index + 1 else index := by
    funext index drv
    cases hif : drv.iface with
    | none => cases virtio_scsi <;> simp [counted_for_bus, hif]
    | some s =>
      cases virtio_scsi
      · by_cases hv : s = "virtio" <;> simp [counted_for_bus, hif, hv]
      · by_cases hv : s = "ide" <;> simp [counted_for_bus, hif, hv]
  rw [appliance_index, hfun, foldl_count_filter]
  omega

/-- Claim C4: the appliance device index equals the count of drives whose
iface is unset or "ide" under virtio-scsi, and unset or different from
"virtio" otherwise; the appliance device path is /dev/sd (virtio-scsi)
or /dev/vd (virtio-blk) followed by the base-26 letter suffix of that
index. -/
theorem claim_C4 (virtio_scsi : Bool) (drives : List Drive) :
    appliance_index virtio_scsi drives =
      (drives.filter (counted_for_bus virtio_scsi)).length ∧
    make_appliance_dev virtio_scsi drives =
      (if virtio_scsi then "/dev/sd" else "/dev/vd") ++
        String.mk (drive_name (appliance_index virtio_scsi drives)) := by
  constructor
  · exact appliance_index_eq_filter virtio_scsi drives
  · cases virtio_scsi <;> exact rfl

/-! ## CapabilityProbe: test_qemu, qemu_supports_device,
qemu_supports_virtio_scsi (src/src/launch-appliance.c:779-956)

The per-handle capability cache `g->app` is the record `AppCaps`; a NULL
string pointer is `none`.  Running the external qemu binary is the one
thing the embedding cannot compute, so its outcome is an explicit
`Probe` value: the run itself failed, the command exited unsuccessfully
(its captured stdout already stored by the callback), or it exited 0
with the captured stdout.
-/

/-- The capability cache of the handle (`g->app`):
`virtio_scsi` is 0 = untested, 1 = supported, 2 = not supported,
3 = test failed. -/
structure AppCaps where
  qemu_help : Option String
  qemu_version : Option String
  qemu_devices : Option String
  qemu_version_major : Nat
  qemu_version_minor : Nat
  virtio_scsi : Nat
deriving DecidableEq

/-- The cache as handle creation leaves it: all pointers NULL, version
0.0, virtio-scsi untested. -/
def initAppCaps : AppCaps :=
  { qemu_help := none, qemu_version := none, qemu_devices := none,
    qemu_version_major := 0, qemu_version_minor := 0, virtio_scsi := 0 }

/-- Outcome of one run of the qemu binary by guestfs___cmd_run. -/
inductive Probe where
  | runError
  | badExit (out : String)
  | success (out : String)
deriving DecidableEq

/-- strstr as a Boolean: does `needle` occur inside `hay`?  strstr of an
empty needle returns the haystack (found). -/
def strstr (hay needle : List Char) : Bool :=
  hay.tails.any fun t => needle.isPrefixOf t

/-- strstr on the cached C strings. -/
def qemu_strstr (hay needle : String) : Bool :=
  strstr hay.data needle.data

/-- The leftmost match of the version regex `(digits).(digits)`: scan
character positions left to right; at a digit take the greedy digit run,
require a dot and at least one digit after it, and capture the two
groups.  This is the PCRE search order of re_major_minor. -/
def find_major_minor : List Char → Option (List Char × List Char)
  | [] => none
  | c :: cs =>
    if c.isDigit then
      match (c :: cs).dropWhile Char.isDigit with
      | d :: r2 =>
        if d = '.' then
          let run2 := r2.takeWhile Char.isDigit
          if run2.isEmpty then find_major_minor cs
          else some ((c :: cs).takeWhile Char.isDigit, run2)
        else find_major_minor cs
      | [] => none
    else find_major_minor cs

/-- Decimal value of a digit run. -/
def digits_to_nat (l : List Char) : Nat :=
  l.foldl (fun n c => n * 10 + (c.toNat - 48)) 0

/-- Modelled from the spec: guestfs___parse_unsigned_int is not among
the repository files given here.  It parses a decimal digit string and
fails (returns -1) when the value does not fit an int; any parse
failure leaves the cached version at 0.0. -/
def parse_unsigned_int (l : List Char) : Option Nat :=
  if digits_to_nat l ≤ 2147483647 then some (digits_to_nat l) else none

/-- parse_qemu_version: reset the version to 0.0, then parse the first
`major.minor` occurrence of the cached version text, leaving 0.0 on any
failure. -/
def parse_qemu_version (app : AppCaps) : AppCaps :=
  let app0 := { app with qemu_version_major := 0, qemu_version_minor := 0 }
  match app0.qemu_version with
  | none => app0
  | some v =>
    match find_major_minor v.toList with
    | none => app0
    | some (majs, mins) =>
      match parse_unsigned_int majs, parse_unsigned_int mins with
      | some majn, some minn =>
        { app0 with qemu_version_major := majn, qemu_version_minor := minn }
      | _, _ => app0

/-- test_qemu: free the three cached strings, run `qemu -nographic
-help` capturing stdout into the help cache, then store the version
text, parse it, and store the device text.  The stored version and
device texts are the empty string.  Returns (succeeded, new cache). -/
def test_qemu (w : Probe) (app : AppCaps) : Bool × AppCaps :=
  let cleared := { app with qemu_help := (none : Option String),
                            qemu_version := (none : Option String),
                            qemu_devices := (none : Option String) }
  match w with
  | .runError => (false, cleared)
  | .badExit out => (false, { cleared with qemu_help := some out })
  | .success out =>
    let withHelp := { cleared with qemu_help := some out }
    let withVersion := { withHelp with qemu_version := some "" }
    let parsed := parse_qemu_version withVersion
    (true, { parsed with qemu_devices := some "" })

/-- qemu_supports_device: probe first if the device cache is NULL (an
error gives -1), then grep the device text.  Returns the C int result
(1 found, 0 not found, -1 error) with the new cache. -/
def qemu_supports_device (w : Probe) (app : AppCaps) (device_name : String) :
    Int × AppCaps :=
  match app.qemu_devices with
  | none =>
    match test_qemu w app with
    | (false, app2) => (-1, app2)
    | (true, app2) =>
      ((if qemu_strstr (app2.qemu_devices.getD "") device_name then 1 else 0),
        app2)
  | some devs =>
    ((if qemu_strstr devs device_name then 1 else 0), app)

/-- old_or_broken_virtio_scsi: qemu 1.1 claims virtio-scsi support but
it is broken. -/
def old_or_broken_virtio_scsi (app : AppCaps) : Bool :=
  app.qemu_version_major = 1 && app.qemu_version_minor < 2

/-- The decision body of qemu_supports_virtio_scsi, once the help text
is known: sticky on `virtio_scsi ≠ 0`; else the broken-version override,
else the device query mapped to 1 / 2 / 3.  Returns
(use virtio-scsi, new cache). -/
def virtio_scsi_decide (w2 : Probe) (app : AppCaps) : Bool × AppCaps :=
  let app2 :=
    if app.virtio_scsi = 0 then
      if old_or_broken_virtio_scsi app then { app with virtio_scsi := 2 }
      else
        let rs := qemu_supports_device w2 app "virtio-scsi-pci"
        if rs.1 > 0 then { rs.2 with virtio_scsi := 1 }
        else if rs.1 = 0 then { rs.2 with virtio_scsi := 2 }
        else { rs.2 with virtio_scsi := 3 }
    else app
  (app2.virtio_scsi == 1, app2)

/-- qemu_supports_virtio_scsi: run the initial probe if the help cache
is NULL (on failure return 0, the safe option, without deciding), then
decide.  `w1` is the outcome of a probe triggered by the missing help
cache, `w2` of one triggered by a missing device cache. -/
def qemu_supports_virtio_scsi (w1 w2 : Probe) (app : AppCaps) : Bool × AppCaps :=
  match app.qemu_help with
  | none =>
    match test_qemu w1 app with
    | (false, app2) => (false, app2)
    | (true, app2) => virtio_scsi_decide w2 app2
  | some _ => virtio_scsi_decide w2 app

/-- max_disks_appliance: 255 under virtio-scsi, else the conservative
27. -/
def max_disks_appliance (w1 w2 : Probe) (app : AppCaps) : Int × AppCaps :=
  match qemu_supports_virtio_scsi w1 w2 app with
  | (true, app2) => (255, app2)
  | (false, app2) => (27, app2)

/-- Claim C5: the bus decision is sticky per handle (once decided, a
repeated call returns the same answer and changes nothing); with the
probe cached, version 1.minor with minor < 2 forces state 2 (virtio-blk)
regardless of device support; otherwise virtio-scsi is enabled iff the
cached device-support query for virtio-scsi-pci is positive, a negative
query gives state 2, a failed query gives state 3, and both of those
answer virtio-blk (false). -/
theorem claim_C5 (w1 w2 : Probe) (app : AppCaps) :
    (app.qemu_help.isSome = true → app.virtio_scsi ≠ 0 →
      qemu_supports_virtio_scsi w1 w2 app = ((app.virtio_scsi == 1), app)) ∧
    (app.qemu_help.isSome = true → app.virtio_scsi = 0 →
      app.qemu_version_major = 1 → app.qemu_version_minor < 2 →
      qemu_supports_virtio_scsi w1 w2 app = (false, { app with virtio_scsi := 2 })) ∧
    (∀ devs : String, app.qemu_help.isSome = true → app.virtio_scsi = 0 →
      ¬(app.qemu_version_major = 1 ∧ app.qemu_version_minor < 2) →
      app.qemu_devices = some devs →
      qemu_supports_virtio_scsi w1 w2 app =
        ((qemu_strstr devs "virtio-scsi-pci"),
          { app with virtio_scsi :=
              if qemu_strstr devs "virtio-scsi-pci" then 1 else 2 })) ∧
    (app.qemu_help.isSome = true → app.virtio_scsi = 0 →
      ¬(app.qemu_version_major = 1 ∧ app.qemu_version_minor < 2) →
      app.qemu_devices = none → (test_qemu w2 app).1 = false →
      qemu_supports_virtio_scsi w1 w2 app =
        (false, { (test_qemu w2 app).2 with virtio_scsi := 3 })) := by
  have hbroken : ∀ a : AppCaps, ¬(a.qemu_version_major = 1 ∧ a.qemu_version_minor < 2) →
      old_or_broken_virtio_scsi a = false := by
    intro a ha
    rw [old_or_broken_virtio_scsi]
    by_cases h1 : a.qemu_version_major = 1
    · have h2 : ¬a.qemu_version_minor < 2 := fun hc => ha ⟨h1, hc⟩
      simp [h1, h2]
    · simp [h1]
  refine ⟨?_, ?_, ?_, ?_⟩
  · intro hh hs
    obtain ⟨h, hhelp⟩ := Option.isSome_iff_exists.mp hh
    simp only [qemu_supports_virtio_scsi, hhelp, virtio_scsi_decide]
    rw [if_neg hs]
  · intro hh hs h1 h2
    obtain ⟨h, hhelp⟩ := Option.isSome_iff_exists.mp hh
    have hb : old_or_broken_virtio_scsi app = true := by
      simp [old_or_broken_virtio_scsi, h1, h2]
    simp only [qemu_supports_virtio_scsi, hhelp, virtio_scsi_decide, hs, hb]
    simp
  · intro devs hh hs hnb hd
    obtain ⟨h, hhelp⟩ := Option.isSome_iff_exists.mp hh
    have hb : old_or_broken_virtio_scsi app = false := hbroken app hnb
    simp only [qemu_supports_virtio_scsi, hhelp, virtio_scsi_decide, hs, hb,
      qemu_supports_device, hd]
    by_cases hstr : qemu_strstr devs "virtio-scsi-pci" = true
    · simp [hstr]
    · simp only [Bool.not_eq_true] at hstr
      simp [hstr]
  · intro hh hs hnb hd hw
    obtain ⟨h, hhelp⟩ := Option.isSome_iff_exists.mp hh
    have hb : old_or_broken_virtio_scsi app = false := hbroken app hnb
    rcases htq : test_qemu w2 app with ⟨ok, app2⟩
    rw [htq] at hw
    simp only at hw
    subst hw
    simp only [qemu_supports_virtio_scsi, hhelp, virtio_scsi_decide, hs, hb,
      qemu_supports_device, hd, htq]
    simp

/-- A concrete cache: probed help text, qemu version 1.1, undecided
bus. -/
def c5App : AppCaps :=
  { qemu_help := some "-help", qemu_version := some "1.1",
    qemu_devices := some "", qemu_version_major := 1, qemu_version_minor := 1,
    virtio_scsi := 0 }

theorem claim_C5_witness :
    qemu_supports_virtio_scsi .runError .runError c5App =
      (false, { c5App with virtio_scsi := 2 }) :=
  (claim_C5 .runError .runError c5App).2.1 (by decide) (by decide) (by decide)
    (by decide)

/-- The invariant behind claim C9: the bus was never decided in favour
of virtio-scsi, and the device cache is NULL or the empty string test_qemu
stores. -/
def caps_inv (app : AppCaps) : Prop :=
  app.virtio_scsi ≠ 1 ∧
    (app.qemu_devices = none ∨ app.qemu_devices = some "")

theorem string_data_ne_nil {s : String} (h : s ≠ "") : s.data ≠ [] := by
  intro hd
  apply h
  cases s
  simp only at hd
  rw [hd]

theorem strstr_nil_false {l : List Char} (h : l ≠ []) : strstr [] l = false := by
  cases l with
  | nil => exact absurd rfl h
  | cons c cs => simp [strstr, List.isPrefixOf]

theorem test_qemu_post (w : Probe) (app : AppCaps) :
    (test_qemu w app).2.virtio_scsi = app.virtio_scsi ∧
    ((test_qemu w app).2.qemu_devices = none ∨
      (test_qemu w app).2.qemu_devices = some "") := by
  cases w <;> simp [test_qemu, parse_qemu_version, find_major_minor, String.toList]

theorem virtio_scsi_decide_blk (w2 : Probe) (app : AppCaps) (h : caps_inv app) :
    (virtio_scsi_decide w2 app).1 = false ∧
    caps_inv (virtio_scsi_decide w2 app).2 := by
  obtain ⟨h1, hdev⟩ := h
  by_cases hz : app.virtio_scsi = 0
  · by_cases hbr : old_or_broken_virtio_scsi app = true
    · simp [virtio_scsi_decide, hz, hbr, caps_inv, hdev]
    · simp only [Bool.not_eq_true] at hbr
      have hdq : (qemu_supports_device w2 app "virtio-scsi-pci").1 ≤ 0 ∧
          ((qemu_supports_device w2 app "virtio-scsi-pci").2.qemu_devices = none ∨
            (qemu_supports_device w2 app "virtio-scsi-pci").2.qemu_devices = some "") := by
        have hemp : qemu_strstr "" "virtio-scsi-pci" = false := by decide
        rcases hdev with hdev | hdev
        · rcases htq : test_qemu w2 app with ⟨ok, app2⟩
          have hpost := test_qemu_post w2 app
          rw [htq] at hpost
          cases ok
          · simp [qemu_supports_device, hdev, htq]
            exact hpost.2
          · simp only at hpost
            rcases hpost.2 with h2 | h2 <;>
              simp [qemu_supports_device, hdev, htq, h2, hemp]
        · simp [qemu_supports_device, hdev, hemp]
      rcases hq : qemu_supports_device w2 app "virtio-scsi-pci" with ⟨r, app2⟩
      rw [hq] at hdq
      simp only at hdq
      have hr0 : ¬(0 < r) := by omega
      by_cases hr : r = 0
      · simp [virtio_scsi_decide, hz, hbr, hq, hr, caps_inv, hdq.2]
      · simp [virtio_scsi_decide, hz, hbr, hq, hr0, hr, caps_inv, hdq.2]
  · simp only [virtio_scsi_decide, hz, if_neg hz, ite_false]
    constructor
    · simp [h1]
    · exact ⟨h1, hdev⟩

/-- Claim C9: after every successful capability probe the cached version
text and device text are the empty string and the parsed version is 0.0;
supports_device answers 0 (false) for every non-empty device name over
that cache; and under the invariant that holds from handle creation on
(never decided for virtio-scsi, device cache NULL or empty)
qemu_supports_virtio_scsi answers virtio-blk and preserves the
invariant, as do test_qemu and qemu_supports_device — so no launch ever
selects virtio-scsi. -/
theorem claim_C9 (w w1 w2 : Probe) (out name : String) (app : AppCaps) :
    ((test_qemu (.success out) app).1 = true ∧
     (test_qemu (.success out) app).2.qemu_version = some "" ∧
     (test_qemu (.success out) app).2.qemu_devices = some "" ∧
     (test_qemu (.success out) app).2.qemu_version_major = 0 ∧
     (test_qemu (.success out) app).2.qemu_version_minor = 0) ∧
    (name ≠ "" → app.qemu_devices = some "" →
      (qemu_supports_device w app name).1 = 0) ∧
    (caps_inv app →
      (qemu_supports_virtio_scsi w1 w2 app).1 = false ∧
      caps_inv (qemu_supports_virtio_scsi w1 w2 app).2) ∧
    (caps_inv app → caps_inv (test_qemu w app).2) ∧
    (caps_inv app → caps_inv (qemu_supports_device w app name).2) ∧
    caps_inv initAppCaps := by
  refine ⟨?_, ?_, ?_, ?_, ?_, ?_⟩
  · simp [test_qemu, parse_qemu_version, find_major_minor, String.toList]
  · intro hname hdev
    have hfalse : qemu_strstr "" name = false := by
      rw [qemu_strstr]
      exact strstr_nil_false (string_data_ne_nil hname)
    simp [qemu_supports_device, hdev, hfalse]
  · intro hinv
    cases hh : app.qemu_help with
    | some h =>
      simp only [qemu_supports_virtio_scsi, hh]
      exact virtio_scsi_decide_blk w2 app hinv
    | none =>
      rcases htq : test_qemu w1 app with ⟨ok, app2⟩
      have hpost := test_qemu_post w1 app
      rw [htq] at hpost
      have hinv2 : caps_inv app2 := by
        refine ⟨?_, hpost.2⟩
        rw [hpost.1]
        exact hinv.1
      cases ok
      · simp only [qemu_supports_virtio_scsi, hh, htq]
        exact ⟨by simp, hinv2⟩
      · simp only [qemu_supports_virtio_scsi, hh, htq]
        exact virtio_scsi_decide_blk w2 app2 hinv2
  · intro hinv
    have hpost := test_qemu_post w app
    refine ⟨?_, hpost.2⟩
    rw [hpost.1]
    exact hinv.1
  · intro hinv
    rcases hinv with ⟨h1, hdev⟩
    rcases hdev with hdev | hdev
    · rcases htq : test_qemu w app with ⟨ok, app2⟩
      have hpost := test_qemu_post w app
      rw [htq] at hpost
      have hinv2 : caps_inv app2 := ⟨by rw [hpost.1]; exact h1, hpost.2⟩
      cases ok <;> simp [qemu_supports_device, hdev, htq, hinv2]
    · simp [qemu_supports_device, hdev, caps_inv, h1]
  · exact ⟨by decide, Or.inl rfl⟩

theorem claim_C9_witness :
    (qemu_supports_virtio_scsi (.success "QEMU emulator") .runError initAppCaps).1
      = false :=
  ((claim_C9 .runError (.success "QEMU emulator") .runError "" "virtio-scsi-pci"
      initAppCaps).2.2.1 ⟨by decide, Or.inl rfl⟩).1

/-- Claim C10: the maximum-disks query answers 255 exactly when the bus
decision selects virtio-scsi, and 27 exactly when it does not. -/
theorem claim_C10 (w1 w2 : Probe) (app : AppCaps) :
    ((max_disks_appliance w1 w2 app).1 = 255 ↔
      (qemu_supports_virtio_scsi w1 w2 app).1 = true) ∧
    ((max_disks_appliance w1 w2 app).1 = 27 ↔
      (qemu_supports_virtio_scsi w1 w2 app).1 = false) := by
  rcases h : qemu_supports_virtio_scsi w1 w2 app with ⟨b, app2⟩
  cases b <;> simp [max_disks_appliance, h]

/-! ## LaunchOrchestrator: launch_appliance (src/src/launch-appliance.c:173-703)

The parent-side control flow is embedded as a function over the handle
and an environment of system-call outcomes.  File descriptors do not
matter by value, only by open/close pairing, so the descriptors the
launch opens get fixed distinct numbers (the listening socket 3, the
stdin pipe 4/5, the stdout pipe 6/7, an accepted connection 8 — at most
one accepted connection is open at a time, since a rejected one is
closed before the next accept).  A `SysLog` tracks the still-open
launch-opened descriptors and the signals sent and children reaped.
`closeFd` on a negative value is the no-op the C close(-1) is.  The
child branches of the two forks never return and are not part of the
parent state.
-/

/-- Handle state. -/
inductive HState where
  | CONFIG
  | LAUNCHING
  | READY
deriving DecidableEq

/-- The parts of the handle the launch path reads and writes:
configuration flags, the drive list, the socket and stdio descriptors,
the two child pids, the state, and whether the launch timer has been
zeroed (memset of g->launch_t). -/
structure LHandle where
  direct : Bool
  recovery_proc : Bool
  drives : List Drive
  sock : Int
  fd0 : Int
  fd1 : Int
  app_pid : Int
  app_recoverypid : Int
  state : HState
  launch_t_zero : Bool
deriving DecidableEq

/-- Side effects on the system: launch-opened fds still open, signals
sent as (pid, signal), children reaped by waitpid. -/
structure SysLog where
  openFds : List Int
  kills : List (Int × Int)
  waited : List Int
deriving DecidableEq

/-- The empty log at the start of a launch. -/
def s0 : SysLog := { openFds := [], kills := [], waited := [] }

/-- The fixed descriptor numbers of the model. -/
def sockFd : Int := 3

/-- wfd[0]. -/
def wfd0Fd : Int := 4

/-- wfd[1]. -/
def wfd1Fd : Int := 5

/-- rfd[0]. -/
def rfd0Fd : Int := 6

/-- rfd[1]. -/
def rfd1Fd : Int := 7

/-- The accepted connection. -/
def acceptFd : Int := 8

/-- A descriptor is opened. -/
def openFd (fd : Int) (s : SysLog) : SysLog :=
  { s with openFds := s.openFds ++ [fd] }

/-- close(fd): a no-op on a negative value. -/
def closeFd (fd : Int) (s : SysLog) : SysLog :=
  if fd ≥ 0 then { s with openFds := s.openFds.erase fd } else s

/-- kill (pid, sig). -/
def killPid (pid sig : Int) (s : SysLog) : SysLog :=
  { s with kills := s.kills ++ [(pid, sig)] }

/-- waitpid (pid). -/
def waitPid (pid : Int) (s : SysLog) : SysLog :=
  { s with waited := s.waited ++ [pid] }

/-- One turn of the accept loop as the environment sees it: the accept
helper fails, it accepts but check_peer_euid fails, or it accepts a
connection whose peer euid check yields `uid`. -/
inductive AcceptEvent where
  | acceptFail
  | euidFail
  | conn (uid : Int)
deriving DecidableEq

/-- Outcomes of the system calls the launch makes, in program order.
`fork_pid`/`recovery_fork_pid` are the child pid on success (`none` is a
failed fork).  `accepts` drives the accept loop; `myuid` is geteuid(). -/
structure LaunchEnv where
  build_ok : Bool
  qemu_ok : Bool
  socket_ok : Bool
  bind_ok : Bool
  listen_ok : Bool
  getsockname_ok : Bool
  fcntl_listen_ok : Bool
  pipe_wfd_ok : Bool
  pipe_rfd_ok : Bool
  fork_pid : Option Int
  recovery_fork_pid : Option Int
  fcntl_pipes_ok : Bool
  accepts : List AcceptEvent
  myuid : Int
  close_listen_ok : Bool
  fcntl_data_ok : Bool
  recv_ok : Bool
  recv_size_ok : Bool
  ready : Bool
deriving DecidableEq

/-- The cleanup0 label (src/src/launch-appliance.c:696-702): close the
handle socket if open, set state CONFIG, return -1. -/
def cleanup0 (g : LHandle) (s : SysLog) : Int × LHandle × SysLog :=
  let s1 := closeFd g.sock s
  let g1 := if g.sock ≥ 0 then { g with sock := -1 } else g
  (-1, { g1 with state := .CONFIG }, s1)

/-- The cleanup1 label (src/src/launch-appliance.c:679-694): in
non-direct mode close the surviving local pipe descriptors — note the
second close is guarded by the stale value of rfd[1] but closes rfd[0] —
SIGKILL and reap the qemu and recovery pids when positive, close the
handle stdio fds, reset the pids, zero the launch timer, then fall
through to cleanup0. -/
def cleanup1 (g : LHandle) (wfd1 rfd0 rfd1 : Int) (s : SysLog) :
    Int × LHandle × SysLog :=
  let s1 :=
    if g.direct then s
    else
      let sa := if wfd1 ≥ 0 then closeFd wfd1 s else s
      if rfd1 ≥ 0 then closeFd rfd0 sa else sa
  let s2 := if g.app_pid > 0 then killPid g.app_pid 9 s1 else s1
  let s3 := if g.app_recoverypid > 0 then killPid g.app_recoverypid 9 s2 else s2
  let s4 := if g.app_pid > 0 then waitPid g.app_pid s3 else s3
  let s5 := if g.app_recoverypid > 0 then waitPid g.app_recoverypid s4 else s4
  let s6 := if g.fd0 ≥ 0 then closeFd g.fd0 s5 else s5
  let s7 := if g.fd1 ≥ 0 then closeFd g.fd1 s6 else s6
  cleanup0
    { g with fd0 := -1, fd1 := -1, app_pid := 0, app_recoverypid := 0,
             launch_t_zero := true }
    s7

/-- The accept loop (src/src/launch-appliance.c:611-629): accept, check
the peer euid — a check failure goes to cleanup1 with the accepted
socket still open — and on a uid mismatch close the connection and loop.
`none` means the event list ran out with the loop still waiting;
`some (none, s)` is the cleanup1 exit; `some (some fd, s)` the
authenticated connection. -/
def accept_loop (myuid : Int) : List AcceptEvent → SysLog →
    Option (Option Int × SysLog)
  | [], _ => none
  | .acceptFail :: _, s => some (none, s)
  | .euidFail :: _, s => some (none, openFd acceptFd s)
  | .conn uid :: rest, s =>
    let s1 := openFd acceptFd s
    if uid = myuid then some (some acceptFd, s1)
    else accept_loop myuid rest (closeFd acceptFd s1)

/-- Phases 10-13: the accept loop, closing the listening socket,
making the data socket non-blocking, the handshake receive and the
READY check. -/
def launch_accept (env : LaunchEnv) (g : LHandle) (wfd1 rfd0 rfd1 : Int)
    (s : SysLog) : Option (Int × LHandle × SysLog) :=
  match accept_loop env.myuid env.accepts s with
  | none => none
  | some (none, s1) => some (cleanup1 g wfd1 rfd0 rfd1 s1)
  | some (some afd, s1) =>
    let s2 := closeFd g.sock s1
    if ¬env.close_listen_ok then
      some (cleanup1 { g with sock := -1 } wfd1 rfd0 rfd1 (closeFd afd s2))
    else
      let g2 := { g with sock := afd }
      if ¬env.fcntl_data_ok then some (cleanup1 g2 wfd1 rfd0 rfd1 s2)
      else if ¬env.recv_ok then some (cleanup1 g2 wfd1 rfd0 rfd1 s2)
      else if ¬env.recv_size_ok then some (cleanup1 g2 wfd1 rfd0 rfd1 s2)
      else
        let g3 := { g2 with state := if env.ready then .READY else .LAUNCHING }
        if g3.state ≠ .READY then some (cleanup1 g3 wfd1 rfd0 rfd1 s2)
        else some (0, g3, s2)

/-- Phase 8-9: close the child pipe ends, make the parent ends
non-blocking, install them as the handle stdio fds (the locals wfd[1]
and rfd[0] are then set to -1), set state LAUNCHING. -/
def launch_plumb (env : LaunchEnv) (g : LHandle) (wfd0 wfd1 rfd0 rfd1 : Int)
    (s : SysLog) : Option (Int × LHandle × SysLog) :=
  if g.direct then
    launch_accept env { g with state := .LAUNCHING } wfd1 rfd0 rfd1 s
  else
    let s1 := closeFd wfd0 s
    let s2 := closeFd rfd1 s1
    if ¬env.fcntl_pipes_ok then some (cleanup1 g wfd1 rfd0 rfd1 s2)
    else
      launch_accept env
        { g with fd0 := wfd1, fd1 := rfd0, state := .LAUNCHING }
        (-1) (-1) rfd1 s2

/-- Phases 6-7: fork qemu (on failure close the four pipe fds and take
cleanup0), record the pid, fork the recovery process when enabled (a
failed recovery fork leaves recoverypid at -1 and is not fatal). -/
def launch_fork (env : LaunchEnv) (g : LHandle) (wfd0 wfd1 rfd0 rfd1 : Int)
    (s : SysLog) : Option (Int × LHandle × SysLog) :=
  match env.fork_pid with
  | none =>
    let s1 :=
      if g.direct then s
      else closeFd rfd1 (closeFd rfd0 (closeFd wfd1 (closeFd wfd0 s)))
    some (cleanup0 g s1)
  | some p =>
    let g1 := { g with app_pid := p }
    let g2 := { g1 with app_recoverypid :=
      if g1.recovery_proc then
        match env.recovery_fork_pid with
        | some rp => rp
        | none => -1
      else -1 }
    launch_plumb env g2 wfd0 wfd1 rfd0 rfd1 s

/-- Phase 5: in non-direct mode create the two stdio pipes.  The C
guard is `pipe (wfd) == -1 || pipe (rfd) == -1`: when the first pipe
succeeds and the second fails, the first pipe's descriptors are left
open on the way to cleanup0. -/
def launch_pipes (env : LaunchEnv) (g : LHandle) (s : SysLog) :
    Option (Int × LHandle × SysLog) :=
  if g.direct then launch_fork env g (-1) (-1) (-1) (-1) s
  else if ¬env.pipe_wfd_ok then some (cleanup0 g s)
  else
    let s1 := openFd wfd1Fd (openFd wfd0Fd s)
    if ¬env.pipe_rfd_ok then some (cleanup0 g s1)
    else
      let s2 := openFd rfd1Fd (openFd rfd0Fd s1)
      launch_fork env g wfd0Fd wfd1Fd rfd0Fd rfd1Fd s2

/-- Phase 4: the loopback listening socket: socket, bind, listen,
getsockname, fcntl O_NONBLOCK. -/
def launch_sock (env : LaunchEnv) (g : LHandle) (s : SysLog) :
    Option (Int × LHandle × SysLog) :=
  if ¬env.socket_ok then some (cleanup0 { g with sock := -1 } s)
  else
    let g1 := { g with sock := sockFd }
    let s1 := openFd sockFd s
    if ¬env.bind_ok then some (cleanup0 g1 s1)
    else if ¬env.listen_ok then some (cleanup0 g1 s1)
    else if ¬env.getsockname_ok then some (cleanup0 g1 s1)
    else if ¬env.fcntl_listen_ok then some (cleanup0 g1 s1)
    else launch_pipes env g1 s1

/-- launch_appliance: the drive-list guard, the appliance build, the
initial capability probe, then the socket phase onward.  `none` models
an accept loop that never terminates. -/
def launch_appliance (env : LaunchEnv) (g : LHandle) (s : SysLog) :
    Option (Int × LHandle × SysLog) :=
  if g.drives = [] then some (-1, g, s)
  else if ¬env.build_ok then some (-1, g, s)
  else if ¬env.qemu_ok then some (cleanup0 g s)
  else launch_sock env g s

/-- Modelled from the spec: the public launch entry point is not among
the repository files given here; per the spec its precondition is
`state == CONFIG`, violated calls fail without touching the handle,
and only then does it dispatch to the attach_ops launch
(launch_appliance). -/
def guestfs_launch (env : LaunchEnv) (g : LHandle) (s : SysLog) :
    Option (Int × LHandle × SysLog) :=
  if g.state ≠ .CONFIG then some (-1, g, s)
  else launch_appliance env g s

/-- Claim C6: launch fails immediately, mutating no handle state, when
called with an empty drive list or in a state other than CONFIG. -/
theorem claim_C6 (env : LaunchEnv) (g : LHandle) (s : SysLog)
    (h : g.drives = [] ∨ g.state ≠ .CONFIG) :
    guestfs_launch env g s = some (-1, g, s) := by
  by_cases hs : g.state = .CONFIG
  · have hd : g.drives = [] := by
      rcases h with h | h
      · exact h
      · exact absurd hs h
    rw [guestfs_launch, if_neg (by simp [hs]), launch_appliance, if_pos hd]
  · rw [guestfs_launch, if_pos hs]

/-- A handle in LAUNCHING state with one drive. -/
def c6Handle : LHandle :=
  { direct := false, recovery_proc := true,
    drives := [{ path := "/a.img", iface := none, format := none,
                 disk_label := none, readonly := false, use_cache_none := false }],
    sock := -1, fd0 := -1, fd1 := -1, app_pid := 0, app_recoverypid := 0,
    state := .LAUNCHING, launch_t_zero := false }

/-- An environment in which every call succeeds and the daemon connects
back with the right uid. -/
def envOK : LaunchEnv :=
  { build_ok := true, qemu_ok := true, socket_ok := true, bind_ok := true,
    listen_ok := true, getsockname_ok := true, fcntl_listen_ok := true,
    pipe_wfd_ok := true, pipe_rfd_ok := true, fork_pid := some 1000,
    recovery_fork_pid := some 1001, fcntl_pipes_ok := true,
    accepts := [.conn 500], myuid := 500, close_listen_ok := true,
    fcntl_data_ok := true, recv_ok := true, recv_size_ok := true,
    ready := true }

theorem claim_C6_witness :
    guestfs_launch envOK c6Handle s0 = some (-1, c6Handle, s0) :=
  claim_C6 envOK c6Handle s0 (Or.inr (by decide))

/-- Does the accept loop stop on a peer-credential check failure (the
one exit that leaves the accepted socket open)?  Connections from the
wrong uid are skipped as the loop does. -/
def loop_euid_term (myuid : Int) : List AcceptEvent → Bool
  | [] => false
  | .acceptFail :: _ => false
  | .euidFail :: _ => true
  | .conn uid :: rest =>
    if uid = myuid then false else loop_euid_term myuid rest

theorem accept_loop_spec (myuid : Int) (evs : List AcceptEvent) :
    ∀ s : SysLog, acceptFd ∉ s.openFds →
      accept_loop myuid evs s = none ∨
      (∃ s1, accept_loop myuid evs s = some (none, s1) ∧
        s1.kills = s.kills ∧ s1.waited = s.waited ∧
        s1.openFds = s.openFds ++
          (if loop_euid_term myuid evs then [acceptFd] else [])) ∨
      (∃ s1, accept_loop myuid evs s = some (some acceptFd, s1) ∧
        loop_euid_term myuid evs = false ∧
        s1.kills = s.kills ∧ s1.waited = s.waited ∧
        s1.openFds = s.openFds ++ [acceptFd]) := by
  induction evs with
  | nil =>
    intro s _
    exact Or.inl rfl
  | cons e rest ih =>
    intro s hnot
    cases e with
    | acceptFail =>
      refine Or.inr (Or.inl ⟨s, rfl, rfl, rfl, ?_⟩)
      simp [loop_euid_term]
    | euidFail =>
      refine Or.inr (Or.inl ⟨openFd acceptFd s, rfl, rfl, rfl, ?_⟩)
      simp [loop_euid_term, openFd]
    | conn uid =>
      by_cases huid : uid = myuid
      · refine Or.inr (Or.inr ⟨openFd acceptFd s, ?_, ?_, rfl, rfl, rfl⟩)
        · simp [accept_loop, huid]
        · simp [loop_euid_term, huid]
      · have hclose : closeFd acceptFd (openFd acceptFd s) = s := by
          simp only [closeFd, openFd]
          rw [if_pos (by decide), List.erase_append_right _ hnot]
          simp
        have hstep : accept_loop myuid (.conn uid :: rest) s =
            accept_loop myuid rest s := by
          simp [accept_loop, huid, hclose]
        have hterm : loop_euid_term myuid (.conn uid :: rest) =
            loop_euid_term myuid rest := by
          simp [loop_euid_term, huid]
        rw [hstep, hterm]
        exact ih s hnot

theorem launch_accept_nd (env : LaunchEnv) (rec lt : Bool) (drv : List Drive)
    (p0 rpv : Int) (g1 : LHandle) (s1 : SysLog)
    (hp0 : 0 < p0)
    (hrun : launch_accept env
      { direct := false, recovery_proc := rec, drives := drv, sock := sockFd,
        fd0 := wfd1Fd, fd1 := rfd0Fd, app_pid := p0, app_recoverypid := rpv,
        state := .LAUNCHING, launch_t_zero := lt }
      (-1) (-1) rfd1Fd
      { openFds := [sockFd, wfd1Fd, rfd0Fd], kills := [], waited := [] }
      = some (-1, g1, s1)) :
    g1.state = .CONFIG ∧ g1.app_pid = 0 ∧ g1.app_recoverypid = 0 ∧
    g1.fd0 = -1 ∧ g1.fd1 = -1 ∧ g1.sock = -1 ∧ g1.launch_t_zero = true ∧
    ((p0, 9) ∈ s1.kills ∧ p0 ∈ s1.waited) ∧
    (0 < rpv → (rpv, 9) ∈ s1.kills ∧ rpv ∈ s1.waited) ∧
    s1.openFds = (if loop_euid_term env.myuid env.accepts then [acceptFd] else []) := by
  rcases accept_loop_spec env.myuid env.accepts
      { openFds := [sockFd, wfd1Fd, rfd0Fd], kills := [], waited := [] }
      (by decide) with hl | ⟨sl, hl, hk, hw, ho⟩ | ⟨sl, hl, hterm, hk, hw, ho⟩
  · rw [launch_accept, hl] at hrun
    exact absurd hrun (by simp)
  · rw [launch_accept, hl] at hrun
    obtain ⟨slo, slk, slw⟩ := sl
    simp only at hk hw ho
    subst hk hw ho
    cases hterm2 : loop_euid_term env.myuid env.accepts
    all_goals rw [hterm2] at hrun
    all_goals by_cases hrp : 0 < rpv
    all_goals (
      simp [cleanup1, cleanup0, closeFd, killPid, waitPid, sockFd, wfd1Fd,
        rfd0Fd, rfd1Fd, acceptFd, hp0, hrp] at hrun;
      obtain ⟨hg1, hs1⟩ := hrun;
      subst hg1;
      subst hs1;
      simp_all [sockFd, wfd1Fd, rfd0Fd, rfd1Fd, acceptFd])
  · rw [launch_accept, hl] at hrun
    obtain ⟨slo, slk, slw⟩ := sl
    simp only at hk hw ho
    subst hk hw ho
    rw [hterm]
    by_cases hcl : env.close_listen_ok
    case neg =>
      by_cases hrp : 0 < rpv
      all_goals (
        simp [launch_accept, cleanup1, cleanup0, closeFd, killPid, waitPid,
          sockFd, wfd1Fd, rfd0Fd, rfd1Fd, acceptFd, hcl, hp0, hrp] at hrun;
        obtain ⟨hg1, hs1⟩ := hrun;
        subst hg1;
        subst hs1;
        simp_all [sockFd, wfd1Fd, rfd0Fd, rfd1Fd, acceptFd])
    case pos =>
      by_cases hfd : env.fcntl_data_ok
      case neg =>
        by_cases hrp : 0 < rpv
        all_goals (
          simp [launch_accept, cleanup1, cleanup0, closeFd, killPid, waitPid,
            sockFd, wfd1Fd, rfd0Fd, rfd1Fd, acceptFd, hcl, hfd, hp0, hrp] at hrun;
          obtain ⟨hg1, hs1⟩ := hrun;
          subst hg1;
          subst hs1;
          simp_all [sockFd, wfd1Fd, rfd0Fd, rfd1Fd, acceptFd])
      case pos =>
        by_cases hrecv : env.recv_ok
        case neg =>
          by_cases hrp : 0 < rpv
          all_goals (
            simp [launch_accept, cleanup1, cleanup0, closeFd, killPid, waitPid,
              sockFd, wfd1Fd, rfd0Fd, rfd1Fd, acceptFd, hcl, hfd, hrecv, hp0,
              hrp] at hrun;
            obtain ⟨hg1, hs1⟩ := hrun;
            subst hg1;
            subst hs1;
            simp_all [sockFd, wfd1Fd, rfd0Fd, rfd1Fd, acceptFd])
        case pos =>
          by_cases hsz : env.recv_size_ok
          case neg =>
            by_cases hrp : 0 < rpv
            all_goals (
              simp [launch_accept, cleanup1, cleanup0, closeFd, killPid, waitPid,
                sockFd, wfd1Fd, rfd0Fd, rfd1Fd, acceptFd, hcl, hfd, hrecv, hsz,
                hp0, hrp] at hrun;
              obtain ⟨hg1, hs1⟩ := hrun;
              subst hg1;
              subst hs1;
              simp_all [sockFd, wfd1Fd, rfd0Fd, rfd1Fd, acceptFd])
          case pos =>
            by_cases hrdy : env.ready
            case neg =>
              by_cases hrp : 0 < rpv
              all_goals (
                simp [launch_accept, cleanup1, cleanup0, closeFd, killPid, waitPid,
                  sockFd, wfd1Fd, rfd0Fd, rfd1Fd, acceptFd, hcl, hfd, hrecv, hsz,
                  hrdy, hp0, hrp] at hrun;
                obtain ⟨hg1, hs1⟩ := hrun;
                subst hg1;
                subst hs1;
                simp_all [sockFd, wfd1Fd, rfd0Fd, rfd1Fd, acceptFd])
            case pos =>
              simp [launch_accept, hcl, hfd, hrecv, hsz, hrdy] at hrun

theorem launch_accept_d (env : LaunchEnv) (rec lt : Bool) (drv : List Drive)
    (p0 rpv : Int) (g1 : LHandle) (s1 : SysLog)
    (hp0 : 0 < p0)
    (hrun : launch_accept env
      { direct := true, recovery_proc := rec, drives := drv, sock := sockFd,
        fd0 := -1, fd1 := -1, app_pid := p0, app_recoverypid := rpv,
        state := .LAUNCHING, launch_t_zero := lt }
      (-1) (-1) (-1)
      { openFds := [sockFd], kills := [], waited := [] }
      = some (-1, g1, s1)) :
    g1.state = .CONFIG ∧ g1.app_pid = 0 ∧ g1.app_recoverypid = 0 ∧
    g1.fd0 = -1 ∧ g1.fd1 = -1 ∧ g1.sock = -1 ∧ g1.launch_t_zero = true ∧
    ((p0, 9) ∈ s1.kills ∧ p0 ∈ s1.waited) ∧
    (0 < rpv → (rpv, 9) ∈ s1.kills ∧ rpv ∈ s1.waited) ∧
    s1.openFds = (if loop_euid_term env.myuid env.accepts then [acceptFd] else []) := by
  rcases accept_loop_spec env.myuid env.accepts
      { openFds := [sockFd], kills := [], waited := [] }
      (by decide) with hl | ⟨sl, hl, hk, hw, ho⟩ | ⟨sl, hl, hterm, hk, hw, ho⟩
  · rw [launch_accept, hl] at hrun
    exact absurd hrun (by simp)
  · rw [launch_accept, hl] at hrun
    obtain ⟨slo, slk, slw⟩ := sl
    simp only at hk hw ho
    subst hk hw ho
    cases hterm2 : loop_euid_term env.myuid env.accepts
    all_goals rw [hterm2] at hrun
    all_goals by_cases hrp : 0 < rpv
    all_goals (
      simp [cleanup1, cleanup0, closeFd, killPid, waitPid, sockFd, wfd1Fd,
        rfd0Fd, rfd1Fd, acceptFd, hp0, hrp] at hrun;
      obtain ⟨hg1, hs1⟩ := hrun;
      subst hg1;
      subst hs1;
      simp_all [sockFd, wfd1Fd, rfd0Fd, rfd1Fd, acceptFd])
  · rw [launch_accept, hl] at hrun
    obtain ⟨slo, slk, slw⟩ := sl
    simp only at hk hw ho
    subst hk hw ho
    rw [hterm]
    by_cases hcl : env.close_listen_ok
    case neg =>
      by_cases hrp : 0 < rpv
      all_goals (
        simp [launch_accept, cleanup1, cleanup0, closeFd, killPid, waitPid,
          sockFd, wfd1Fd, rfd0Fd, rfd1Fd, acceptFd, hcl, hp0, hrp] at hrun;
        obtain ⟨hg1, hs1⟩ := hrun;
        subst hg1;
        subst hs1;
        simp_all [sockFd, wfd1Fd, rfd0Fd, rfd1Fd, acceptFd])
    case pos =>
      by_cases hfd : env.fcntl_data_ok
      case neg =>
        by_cases hrp : 0 < rpv
        all_goals (
          simp [launch_accept, cleanup1, cleanup0, closeFd, killPid, waitPid,
            sockFd, wfd1Fd, rfd0Fd, rfd1Fd, acceptFd, hcl, hfd, hp0, hrp] at hrun;
          obtain ⟨hg1, hs1⟩ := hrun;
          subst hg1;
          subst hs1;
          simp_all [sockFd, wfd1Fd, rfd0Fd, rfd1Fd, acceptFd])
      case pos =>
        by_cases hrecv : env.recv_ok
        case neg =>
          by_cases hrp : 0 < rpv
          all_goals (
            simp [launch_accept, cleanup1, cleanup0, closeFd, killPid, waitPid,
              sockFd, wfd1Fd, rfd0Fd, rfd1Fd, acceptFd, hcl, hfd, hrecv, hp0,
              hrp] at hrun;
            obtain ⟨hg1, hs1⟩ := hrun;
            subst hg1;
            subst hs1;
            simp_all [sockFd, wfd1Fd, rfd0Fd, rfd1Fd, acceptFd])
        case pos =>
          by_cases hsz : env.recv_size_ok
          case neg =>
            by_cases hrp : 0 < rpv
            all_goals (
              simp [launch_accept, cleanup1, cleanup0, closeFd, killPid, waitPid,
                sockFd, wfd1Fd, rfd0Fd, rfd1Fd, acceptFd, hcl, hfd, hrecv, hsz,
                hp0, hrp] at hrun;
              obtain ⟨hg1, hs1⟩ := hrun;
              subst hg1;
              subst hs1;
              simp_all [sockFd, wfd1Fd, rfd0Fd, rfd1Fd, acceptFd])
          case pos =>
            by_cases hrdy : env.ready
            case neg =>
              by_cases hrp : 0 < rpv
              all_goals (
                simp [launch_accept, cleanup1, cleanup0, closeFd, killPid, waitPid,
                  sockFd, wfd1Fd, rfd0Fd, rfd1Fd, acceptFd, hcl, hfd, hrecv, hsz,
                  hrdy, hp0, hrp] at hrun;
                obtain ⟨hg1, hs1⟩ := hrun;
                subst hg1;
                subst hs1;
                simp_all [sockFd, wfd1Fd, rfd0Fd, rfd1Fd, acceptFd])
            case pos =>
              simp [launch_accept, hcl, hfd, hrecv, hsz, hrdy] at hrun


/-- Well-formed environment: fork returns a positive pid in the parent. -/
def envWF (env : LaunchEnv) : Prop :=
  (∀ p, env.fork_pid = some p → 0 < p) ∧
  (∀ p, env.recovery_fork_pid = some p → 0 < p)

/-- The handle as launch receives it: no sockets, no stdio fds, no
children, state CONFIG. -/
def g0WF (g : LHandle) : Prop :=
  g.sock = -1 ∧ g.fd0 = -1 ∧ g.fd1 = -1 ∧ g.app_pid = 0 ∧
  g.app_recoverypid = 0 ∧ g.state = .CONFIG

/-- Did the launch get past the fork?  All pre-fork phases succeeded:
bind, listen, getsockname, fcntl, the pipes (in non-direct mode), and
the fork itself. -/
def pre_fork_ok (env : LaunchEnv) (g : LHandle) : Prop :=
  env.bind_ok = true ∧ env.listen_ok = true ∧ env.getsockname_ok = true ∧
  env.fcntl_listen_ok = true ∧
  (g.direct = true ∨ (env.pipe_wfd_ok = true ∧ env.pipe_rfd_ok = true)) ∧
  env.fork_pid ≠ none

theorem c7_post_fork (env : LaunchEnv) (gOrig : LHandle) (rpv p0 : Int)
    (fp rfp : Option Int) (g1 : LHandle) (s1 : SysLog)
    (hpre : pre_fork_ok env gOrig)
    (hfork : fp = some p0)
    (hrpv : gOrig.recovery_proc = true → ∀ q, rfp = some q → rpv = q)
    (hqpos : ∀ q, rfp = some q → 0 < q)
    (hc : g1.state = HState.CONFIG ∧ g1.app_pid = 0 ∧ g1.app_recoverypid = 0 ∧
      g1.fd0 = -1 ∧ g1.fd1 = -1 ∧ g1.sock = -1 ∧ g1.launch_t_zero = true ∧
      ((p0, 9) ∈ s1.kills ∧ p0 ∈ s1.waited) ∧
      (0 < rpv → (rpv, 9) ∈ s1.kills ∧ rpv ∈ s1.waited) ∧
      s1.openFds =
        (if loop_euid_term env.myuid env.accepts then [acceptFd] else [])) :
    g1.state = HState.CONFIG ∧ g1.app_pid = 0 ∧ g1.app_recoverypid = 0 ∧
    g1.fd0 = -1 ∧ g1.fd1 = -1 ∧ g1.sock = -1 ∧
    (s1.openFds = [] ∨
      (env.pipe_rfd_ok = false ∧ s1.openFds = [wfd0Fd, wfd1Fd]) ∨
      (loop_euid_term env.myuid env.accepts = true ∧ s1.openFds = [acceptFd])) ∧
    (pre_fork_ok env gOrig →
      g1.launch_t_zero = true ∧
      (∀ p, fp = some p → (p, 9) ∈ s1.kills ∧ p ∈ s1.waited) ∧
      (gOrig.recovery_proc = true →
        ∀ p, rfp = some p →
          (p, 9) ∈ s1.kills ∧ p ∈ s1.waited)) ∧
    (¬pre_fork_ok env gOrig → g1.launch_t_zero = gOrig.launch_t_zero) := by
  obtain ⟨h1, h2, h3, h4, h5, h6, h7, ⟨hk0, hw0⟩, hkr, ho⟩ := hc
  refine ⟨h1, h2, h3, h4, h5, h6, ?_, ?_, ?_⟩
  · cases hterm : loop_euid_term env.myuid env.accepts
    · rw [hterm] at ho
      simp only [if_false, Bool.false_eq_true, ite_false] at ho
      exact Or.inl ho
    · rw [hterm] at ho
      simp only [if_true, ite_true] at ho
      exact Or.inr (Or.inr ⟨rfl, ho⟩)
  · intro _
    refine ⟨h7, ?_, ?_⟩
    · intro p hp
      rw [hfork] at hp
      have hpp : p0 = p := by injection hp
      subst hpp
      exact ⟨hk0, hw0⟩
    · intro hrec q hq
      have he : rpv = q := hrpv hrec q hq
      have hpos : 0 < rpv := he ▸ hqpos q hq
      have hm := hkr hpos
      rw [he] at hm
      exact hm
  · intro hnp
    exact absurd hpre hnp

/-- Claim C7 (amended): on every failure path after the listening socket
is created, launch returns failure with the handle in CONFIG,
vm_pid = recovery_pid = 0, the handle stdio fds reset and closed and the
handle sockets closed; on failure paths after the fork the VM and
recovery processes with positive pids are sent SIGKILL and reaped and
the launch timer is zeroed — but failures before the fork leave the
launch timer untouched; and all launch-opened descriptors are closed
except that the first stdio pipe's two descriptors stay open when
creating the second pipe fails, and the accepted socket stays open when
the peer-credential check fails. -/
theorem claim_C7 (env : LaunchEnv) (g g1 : LHandle) (s1 : SysLog)
    (hwf : envWF env) (hg : g0WF g)
    (hscope : g.drives ≠ [] ∧ env.build_ok = true ∧ env.qemu_ok = true ∧
      env.socket_ok = true)
    (hrun : launch_appliance env g s0 = some (-1, g1, s1)) :
    g1.state = .CONFIG ∧ g1.app_pid = 0 ∧ g1.app_recoverypid = 0 ∧
    g1.fd0 = -1 ∧ g1.fd1 = -1 ∧ g1.sock = -1 ∧
    (s1.openFds = [] ∨
      (env.pipe_rfd_ok = false ∧ s1.openFds = [wfd0Fd, wfd1Fd]) ∨
      (loop_euid_term env.myuid env.accepts = true ∧ s1.openFds = [acceptFd])) ∧
    (pre_fork_ok env g →
      g1.launch_t_zero = true ∧
      (∀ p, env.fork_pid = some p → (p, 9) ∈ s1.kills ∧ p ∈ s1.waited) ∧
      (g.recovery_proc = true →
        ∀ p, env.recovery_fork_pid = some p →
          (p, 9) ∈ s1.kills ∧ p ∈ s1.waited)) ∧
    (¬pre_fork_ok env g → g1.launch_t_zero = g.launch_t_zero) := by
  obtain ⟨hdrv, hbuild, hqemu, hsock⟩ := hscope
  obtain ⟨hwf1, hwf2⟩ := hwf
  obtain ⟨dir, rec, drv, sk, f0, f1, ap, arp, st, lt⟩ := g
  obtain ⟨hsk, hf0, hf1, hap, harp, hst⟩ := hg
  simp only at hsk hf0 hf1 hap harp hst hdrv
  subst hsk hf0 hf1 hap harp hst
  rw [launch_appliance, if_neg hdrv, if_neg (not_not_intro hbuild),
    if_neg (not_not_intro hqemu), launch_sock,
    if_neg (not_not_intro hsock)] at hrun
  simp only [openFd, s0, List.nil_append] at hrun
  by_cases hbind : env.bind_ok = true
  case neg =>
    rw [if_pos hbind] at hrun
    simp [cleanup0, closeFd, sockFd] at hrun
    obtain ⟨hg1, hs1⟩ := hrun
    subst hg1 hs1
    simp_all [pre_fork_ok]
  rw [if_neg (not_not_intro hbind)] at hrun
  by_cases hlisten : env.listen_ok = true
  case neg =>
    rw [if_pos hlisten] at hrun
    simp [cleanup0, closeFd, sockFd] at hrun
    obtain ⟨hg1, hs1⟩ := hrun
    subst hg1 hs1
    simp_all [pre_fork_ok]
  rw [if_neg (not_not_intro hlisten)] at hrun
  by_cases hgsn : env.getsockname_ok = true
  case neg =>
    rw [if_pos hgsn] at hrun
    simp [cleanup0, closeFd, sockFd] at hrun
    obtain ⟨hg1, hs1⟩ := hrun
    subst hg1 hs1
    simp_all [pre_fork_ok]
  rw [if_neg (not_not_intro hgsn)] at hrun
  by_cases hfl : env.fcntl_listen_ok = true
  case neg =>
    rw [if_pos hfl] at hrun
    simp [cleanup0, closeFd, sockFd] at hrun
    obtain ⟨hg1, hs1⟩ := hrun
    subst hg1 hs1
    simp_all [pre_fork_ok]
  rw [if_neg (not_not_intro hfl)] at hrun
  cases dir with
  | true =>
    simp only [launch_pipes, ite_true, if_true] at hrun
    cases hfork : env.fork_pid with
    | none =>
      simp [launch_fork, hfork, cleanup0, closeFd, sockFd] at hrun
      obtain ⟨hg1, hs1⟩ := hrun
      subst hg1 hs1
      simp_all [pre_fork_ok]
    | some p0 =>
      have hp0 : 0 < p0 := hwf1 p0 hfork
      simp only [launch_fork, hfork, launch_plumb, ite_true, if_true] at hrun
      cases rec with
      | false =>
        simp only [Bool.false_eq_true, if_false, ite_false] at hrun
        refine c7_post_fork env _ (-1) p0 (some p0) env.recovery_fork_pid g1 s1
          ?_ rfl ?_ hwf2 (launch_accept_d env _ _ _ p0 _ g1 s1 hp0 hrun)
        · simp [pre_fork_ok, hbind, hlisten, hgsn, hfl, hfork]
        · simp
      | true =>
        cases hrfp : env.recovery_fork_pid with
        | none =>
          simp only [hrfp, ite_true, if_true] at hrun
          refine c7_post_fork env _ (-1) p0 (some p0) none g1 s1
            ?_ rfl ?_ ?_ (launch_accept_d env _ _ _ p0 _ g1 s1 hp0 hrun)
          · simp [pre_fork_ok, hbind, hlisten, hgsn, hfl, hfork]
          · simp
          · simp
        | some rp =>
          have hrp2 : 0 < rp := hwf2 rp hrfp
          simp only [hrfp, ite_true, if_true] at hrun
          refine c7_post_fork env _ rp p0 (some p0) (some rp) g1 s1
            ?_ rfl ?_ ?_ (launch_accept_d env _ _ _ p0 _ g1 s1 hp0 hrun)
          · simp [pre_fork_ok, hbind, hlisten, hgsn, hfl, hfork]
          · intro _ q hq
            exact Option.some.inj hq
          · intro q hq
            exact (Option.some.inj hq) ▸ hrp2
  | false =>
    simp only [launch_pipes, Bool.false_eq_true, if_false, ite_false] at hrun
    by_cases hpw : env.pipe_wfd_ok = true
    case neg =>
      rw [if_pos hpw] at hrun
      simp [cleanup0, closeFd, sockFd] at hrun
      obtain ⟨hg1, hs1⟩ := hrun
      subst hg1 hs1
      simp_all [pre_fork_ok]
    rw [if_neg (not_not_intro hpw)] at hrun
    simp only [openFd, List.nil_append] at hrun
    by_cases hpr : env.pipe_rfd_ok = true
    case neg =>
      rw [if_pos hpr] at hrun
      simp [cleanup0, closeFd, sockFd, wfd0Fd, wfd1Fd] at hrun
      obtain ⟨hg1, hs1⟩ := hrun
      subst hg1 hs1
      simp_all [pre_fork_ok, wfd0Fd, wfd1Fd]
    rw [if_neg (not_not_intro hpr)] at hrun
    cases hfork : env.fork_pid with
    | none =>
      simp [launch_fork, hfork, cleanup0, closeFd, sockFd, wfd0Fd, wfd1Fd,
        rfd0Fd, rfd1Fd] at hrun
      obtain ⟨hg1, hs1⟩ := hrun
      subst hg1 hs1
      simp_all [pre_fork_ok]
    | some p0 =>
      have hp0 : 0 < p0 := hwf1 p0 hfork
      simp only [launch_fork, hfork, launch_plumb, Bool.false_eq_true, if_false,
        ite_false] at hrun
      simp only [closeFd, wfd0Fd, rfd1Fd, sockFd, wfd1Fd, rfd0Fd] at hrun
      norm_num at hrun
      cases rec with
      | false =>
        simp only [Bool.false_eq_true, if_false, ite_false] at hrun
        by_cases hfp : env.fcntl_pipes_ok = true
        case neg =>
          have hfp2 : env.fcntl_pipes_ok = false := by simpa using hfp
          rw [if_pos hfp2] at hrun
          simp [cleanup1, cleanup0, closeFd, killPid, waitPid, sockFd, wfd0Fd,
            wfd1Fd, rfd0Fd, rfd1Fd, hp0] at hrun
          obtain ⟨hg1, hs1⟩ := hrun
          subst hg1 hs1
          simp_all [pre_fork_ok]
        case pos =>
          rw [if_neg (by simp [hfp] : ¬env.fcntl_pipes_ok = false)] at hrun
          refine c7_post_fork env _ (-1) p0 (some p0) env.recovery_fork_pid g1 s1
            ?_ rfl ?_ hwf2 (launch_accept_nd env _ _ _ p0 _ g1 s1 hp0 hrun)
          · simp [pre_fork_ok, hbind, hlisten, hgsn, hfl, hpw, hpr, hfork]
          · simp
      | true =>
        cases hrfp : env.recovery_fork_pid with
        | none =>
          simp only [hrfp, ite_true, if_true] at hrun
          by_cases hfp : env.fcntl_pipes_ok = true
          case neg =>
            have hfp2 : env.fcntl_pipes_ok = false := by simpa using hfp
            rw [if_pos hfp2] at hrun
            simp [cleanup1, cleanup0, closeFd, killPid, waitPid, sockFd, wfd0Fd,
              wfd1Fd, rfd0Fd, rfd1Fd, hp0] at hrun
            obtain ⟨hg1, hs1⟩ := hrun
            subst hg1 hs1
            simp_all [pre_fork_ok]
          case pos =>
            rw [if_neg (by simp [hfp] : ¬env.fcntl_pipes_ok = false)] at hrun
            refine c7_post_fork env _ (-1) p0 (some p0) none g1 s1
              ?_ rfl ?_ ?_
              (launch_accept_nd env _ _ _ p0 _ g1 s1 hp0 hrun)
            · simp [pre_fork_ok, hbind, hlisten, hgsn, hfl, hpw, hpr, hfork]
            · simp
            · simp
        | some rp =>
          have hrp2 : 0 < rp := hwf2 rp hrfp
          simp only [hrfp, ite_true, if_true] at hrun
          by_cases hfp : env.fcntl_pipes_ok = true
          case neg =>
            have hfp2 : env.fcntl_pipes_ok = false := by simpa using hfp
            rw [if_pos hfp2] at hrun
            simp [cleanup1, cleanup0, closeFd, killPid, waitPid, sockFd, wfd0Fd,
              wfd1Fd, rfd0Fd, rfd1Fd, hp0, hrp2] at hrun
            obtain ⟨hg1, hs1⟩ := hrun
            subst hg1 hs1
            simp_all [pre_fork_ok]
          case pos =>
            rw [if_neg (by simp [hfp] : ¬env.fcntl_pipes_ok = false)] at hrun
            refine c7_post_fork env _ rp p0 (some p0) (some rp) g1 s1
              ?_ rfl ?_ ?_
              (launch_accept_nd env _ _ _ p0 _ g1 s1 hp0 hrun)
            · simp [pre_fork_ok, hbind, hlisten, hgsn, hfl, hpw, hpr, hfork]
            · intro _ q hq
              exact Option.some.inj hq
            · intro q hq
              exact (Option.some.inj hq) ▸ hrp2

/-- The launch handle of the concrete runs: CONFIG, one drive, pipes
wanted, recovery wanted, launch timer set (not zeroed). -/
def c7Handle : LHandle := { c6Handle with state := .CONFIG }

/-- Everything succeeds except bind. -/
def envBindFail : LaunchEnv := { envOK with bind_ok := false }

/-- Everything succeeds except the peer-credential check on the first
accepted connection. -/
def envEuidFail : LaunchEnv := { envOK with accepts := [.euidFail] }

/-- The first stdio pipe is created, the second pipe call fails. -/
def envPipeFail : LaunchEnv := { envOK with pipe_rfd_ok := false }

/-- Everything succeeds except the handshake receive. -/
def envRecvFail : LaunchEnv := { envOK with recv_ok := false }

/-- The returned code of a launch run. -/
def launch_result_code (r : Option (Int × LHandle × SysLog)) : Option Int :=
  r.map fun x => x.1

/-- Whether the launch timer was zeroed, of a launch run. -/
def launch_result_timer (r : Option (Int × LHandle × SysLog)) : Option Bool :=
  r.map fun x => x.2.1.launch_t_zero

/-- The still-open launch-opened descriptors of a launch run. -/
def launch_result_open (r : Option (Int × LHandle × SysLog)) : Option (List Int) :=
  r.map fun x => x.2.2.openFds

/-- Claim C7 is false as stated: when bind fails (a phase-4 failure
after the listening socket is created) the launch returns failure
without zeroing the launch timer; when the peer-credential check fails
the accepted socket (fd 8) is left open; and when creating the second
stdio pipe fails the first pipe's descriptors (fds 4 and 5) are left
open — all three contradict the claimed epilogue, which requires the
timer zeroed and every socket and launch-opened descriptor closed on
every such failure path. -/
theorem claim_C7_counterexample :
    (launch_result_code (launch_appliance envBindFail c7Handle s0) = some (-1) ∧
     launch_result_timer (launch_appliance envBindFail c7Handle s0) = some false) ∧
    (launch_result_code (launch_appliance envEuidFail c7Handle s0) = some (-1) ∧
     launch_result_open (launch_appliance envEuidFail c7Handle s0) =
       some [acceptFd]) ∧
    (launch_result_code (launch_appliance envPipeFail c7Handle s0) = some (-1) ∧
     launch_result_open (launch_appliance envPipeFail c7Handle s0) =
       some [wfd0Fd, wfd1Fd]) := by
  decide

theorem claim_C7_witness :
    launch_result_timer (launch_appliance envRecvFail c7Handle s0) = some true ∧
    launch_result_open (launch_appliance envRecvFail c7Handle s0) = some [] := by
  rcases hres : launch_appliance envRecvFail c7Handle s0 with _ | ⟨r, g1, s1⟩
  · exact absurd hres (by decide)
  · have hcode : launch_result_code (some (r, g1, s1)) = some (-1) := by
      rw [← hres]
      decide
    simp only [launch_result_code, Option.map_some] at hcode
    have hr : r = -1 := by
      have := Option.some.inj hcode
      simpa using this
    subst hr
    have h := claim_C7 envRecvFail c7Handle g1 s1
      (by
        constructor
        · intro p hp
          have hp2 : (1000 : Int) = p := Option.some.inj hp
          omega
        · intro p hp
          have hp2 : (1001 : Int) = p := Option.some.inj hp
          omega)
      (by simp [g0WF, c7Handle, c6Handle]) (by decide) hres
    obtain ⟨-, -, -, -, -, -, hopen, hpost, -⟩ := h
    have hpf := hpost (by simp [pre_fork_ok, c7Handle, c6Handle, envRecvFail, envOK])
    refine ⟨?_, ?_⟩
    · simp [launch_result_timer, hpf.1]
    · rcases hopen with ho | ⟨hpr, -⟩ | ⟨hterm, -⟩
      · simp [launch_result_open, ho]
      · exact absurd hpr (by decide)
      · exact absurd hterm (by decide)

/-! ## ShutdownController: shutdown_appliance
(src/src/launch-appliance.c:1085-1121)

SIGTERM the VM and SIGKILL the recovery process when their pids are
positive; when the recovery process is enabled and the VM pid is
positive, wait for the VM and report a non-clean exit; reap the
recovery process; zero both pids and free the three cached capability
strings.
-/

/-- What waitpid on the VM reports. -/
inductive WaitStatus where
  | waitError
  | exited (code : Nat)
  | signaled
deriving DecidableEq

/-- Outcome of the one blocking call shutdown makes. -/
structure ShutdownEnv where
  qemu_wait : WaitStatus
deriving DecidableEq

/-- The handle fields shutdown touches. -/
structure SHandle where
  app_pid : Int
  app_recoverypid : Int
  recovery_proc : Bool
  caps : AppCaps
deriving DecidableEq

/-- shutdown_appliance: returns (ret, handle, log). -/
def shutdown_appliance (env : ShutdownEnv) (h : SHandle) (s : SysLog) :
    Int × SHandle × SysLog :=
  let s1 := if h.app_pid > 0 then killPid h.app_pid 15 s else s
  let s2 := if h.app_recoverypid > 0 then killPid h.app_recoverypid 9 s1 else s1
  let rs : Int × SysLog :=
    if h.recovery_proc = true ∧ h.app_pid > 0 then
      match env.qemu_wait with
      | .waitError => (-1, s2)
      | .exited 0 => (0, waitPid h.app_pid s2)
      | .exited (_ + 1) => (-1, waitPid h.app_pid s2)
      | .signaled => (-1, waitPid h.app_pid s2)
    else (0, s2)
  let s3 := if h.app_recoverypid > 0 then waitPid h.app_recoverypid rs.2 else rs.2
  let caps2 : AppCaps :=
    { h.caps with
      qemu_help := none
      qemu_version := none
      qemu_devices := none }
  (rs.1, { h with app_pid := 0, app_recoverypid := 0, caps := caps2 }, s3)

/-- Claim C8: after one shutdown call vm_pid = recovery_pid = 0 and the
cached help, version and device texts are all cleared; a second call
from that state changes nothing — handle and log are untouched, no
signal is sent, nothing is reaped — and returns success (0). -/
theorem shutdown_noop (env2 : ShutdownEnv) (h1 : SHandle) (s1 : SysLog)
    (h1p : h1.app_pid = 0) (h1r : h1.app_recoverypid = 0)
    (hch : h1.caps.qemu_help = none) (hcv : h1.caps.qemu_version = none)
    (hcd : h1.caps.qemu_devices = none) :
    shutdown_appliance env2 h1 s1 = (0, h1, s1) := by
  obtain ⟨p1, p2, rec1, caps1⟩ := h1
  obtain ⟨ch, cv, cd, cj, cn, cs⟩ := caps1
  simp only at h1p h1r hch hcv hcd
  subst h1p h1r hch hcv hcd
  simp [shutdown_appliance]

theorem claim_C8 (env : ShutdownEnv) (h : SHandle) (s : SysLog) :
    (shutdown_appliance env h s).2.1.app_pid = 0 ∧
    (shutdown_appliance env h s).2.1.app_recoverypid = 0 ∧
    (shutdown_appliance env h s).2.1.caps.qemu_help = none ∧
    (shutdown_appliance env h s).2.1.caps.qemu_version = none ∧
    (shutdown_appliance env h s).2.1.caps.qemu_devices = none ∧
    (∀ env2 : ShutdownEnv,
      shutdown_appliance env2 (shutdown_appliance env h s).2.1
          (shutdown_appliance env h s).2.2 =
        (0, (shutdown_appliance env h s).2.1, (shutdown_appliance env h s).2.2)) := by
  refine ⟨?_, ?_, ?_, ?_, ?_, fun env2 =>
    shutdown_noop env2 _ _ ?_ ?_ ?_ ?_ ?_⟩ <;>
    simp [shutdown_appliance]

end Guestfs
